import Mathlib

/-!
Verification of the paper-discovery ML engine (src/src/ml_engine.py together
with the paper store of src/src/database.py), as a shallow embedding.

Pure orchestration logic is translated directly from the Python source.
External sklearn computations (fitting, cross-validation predictions,
vectorization, predicted probabilities) are supplied as oracle parameters:
the embedding verifies the control flow, validation, protocol selection,
metric assembly and persistence logic of the engine, which is exactly what
the claims are about.

Conventions: Python ints are Int (label sums can in principle go negative
under subtraction), list lengths are Nat, floats computed by the engine
itself (the neutral 0.5 metrics) are rationals, and Python None becomes
Option.none.
-/

/-- A row of the papers table (database.py, class PaperRecord), restricted to
the fields the ML engine reads.  Python truthiness of a missing/empty text
field is modelled by the empty string; user_label is None or an int
(1 = relevant, 0 = not relevant); published is an abstract timestamp used
only for the newest-first ordering of get_all_papers. -/
structure Paper where
  arxiv_id : String
  title : String
  summary : String
  authors : String
  primary_category : String
  user_label : Option Int
  published : Nat
deriving DecidableEq, Repr

/-- ml_engine.py PaperMLEngine.prepare_text (lines 42-53): join the
non-empty ones among title, summary, authors, primary_category with a
single space, in that fixed order. -/
def prepare_text (p : Paper) : String :=
  String.intercalate " "
    (([p.title, p.summary, p.authors, p.primary_category]).filter
      (fun s => !s.isEmpty))

/-- ml_engine.py PaperMLEngine.get_training_data (lines 55-68): from the
labeled papers, keep the pairs whose prepared text is non-empty and whose
user_label is not None, as parallel lists of texts and labels. -/
def get_training_data (papers : List Paper) : List String × List Int :=
  let pairs := papers.filterMap (fun p =>
    match p.user_label with
    | some l => if (prepare_text p).isEmpty then none else some (prepare_text p, l)
    | none => none)
  (pairs.map Prod.fst, pairs.map Prod.snd)

/-- The four held-out evaluation metrics produced by one evaluation
protocol (accuracy, precision, recall, F1). -/
structure Metrics4 where
  accuracy : ℚ
  precisionScore : ℚ
  recallScore : ℚ
  f1 : ℚ
deriving DecidableEq, Repr, Inhabited

/-- ml_engine.py lines 216-220: is_reliable is the pure condition
n >= 20 and n_positive >= 5 and n_negative >= 5. -/
def is_reliable (n : Nat) (nPos nNeg : Int) : Bool :=
  decide (20 ≤ n ∧ 5 ≤ nPos ∧ 5 ≤ nNeg)

/-- ml_engine.py lines 223-228: the confidence tier, a pure function of
(n, n_positive, n_negative). -/
def confidence_level (n : Nat) (nPos nNeg : Int) : String :=
  if 50 ≤ n ∧ 15 ≤ nPos ∧ 15 ≤ nNeg then "high"
  else if 20 ≤ n ∧ 5 ≤ nPos ∧ 5 ≤ nNeg then "medium"
  else "low"

/-- Numeric rank of a confidence tier: low 0, medium 1, high 2. -/
def confRank (s : String) : Nat :=
  if s = "high" then 2 else if s = "medium" then 1 else 0

/-- A fitted LogisticRegression as the engine sees it: the list of class
values (model.classes_, label values as ints) and the predicted-probability
row for a feature vector (model.predict_proba(X)[0]).  The numeric fitting
itself is external (sklearn); only its interface is used by the engine. -/
structure FittedModel where
  classes : List Int
  predictProba : List ℚ → List ℚ

/-- A fitted TfidfVectorizer as the engine sees it: transform of one
prepared text into a feature vector (vectorizer.transform([text])). -/
structure Vectorizer where
  transform : String → List ℚ

/-- The metrics dict built by a successful train() call
(ml_engine.py lines 251-268).  The trained_at wall-clock timestamp is
outside the model. -/
structure TrainMetrics where
  samples : Nat
  positive_samples : Int
  negative_samples : Int
  accuracy : ℚ
  precisionScore : ℚ
  recallScore : ℚ
  f1 : ℚ
  cv_accuracy : ℚ
  training_accuracy : ℚ
  evaluation_method : String
  reliable : Bool
  confidenceLevel : String
  top_positive : List (String × ℚ)
  top_negative : List (String × ℚ)
deriving Repr, Inhabited

/-- The in-memory state of PaperMLEngine: self.model, self.vectorizer,
self.is_trained, self.metrics (None/empty before first training). -/
structure EngineState where
  model : Option FittedModel
  vectorizer : Option Vectorizer
  trained : Bool
  metrics : Option TrainMetrics

/-- Outcomes of the external sklearn computations consumed by one train()
call.  cvPredict takes the number of folds actually passed to
cross_val_predict and is None exactly when that call raises (the degenerate
fold case of ml_engine.py lines 186-198); cvScoresMean takes the fold count
passed to cross_val_score.  The fitted model/vectorizer and their pickled
blobs are the products of the external fitting and serialization. -/
structure TrainOracles where
  ttsMetrics : Metrics4
  cvScoresMean : Nat → ℚ
  looMetrics : Metrics4
  cvPredict : Nat → Option Metrics4
  trainingAccuracy : ℚ
  topPositive : List (String × ℚ)
  topNegative : List (String × ℚ)
  fittedModel : FittedModel
  fittedVectorizer : Vectorizer
  model_blob : String
  vectorizer_blob : String

/-- The structured result dict of train(): the insufficient-samples failure
carries current_count and required_count (ml_engine.py lines 81-86), the
single-class failure carries current_count (lines 91-95), success carries
the metrics dict (line 280). -/
inductive TrainResult where
  | insufficientData (current_count required_count : Nat)
  | classImbalance (current_count : Nat)
  | success (metrics : TrainMetrics)

/-- Whether a train() result dict has success=True. -/
def TrainResult.isSuccess : TrainResult → Bool
  | .success _ => true
  | _ => false

/-- Whether a train() result is the insufficient-samples failure. -/
def TrainResult.isInsufficientData : TrainResult → Bool
  | .insufficientData _ _ => true
  | _ => false

/-- The metrics dict of a successful result (default for failures). -/
def TrainResult.getMetrics : TrainResult → TrainMetrics
  | .success m => m
  | _ => default

/-- Everything observable from one train() call: the engine state after the
call, the returned result dict, and the arguments of the
db.save_model_state call when one was made (ml_engine.py line 275). -/
structure TrainOutput where
  state : EngineState
  result : TrainResult
  saved : Option (String × String × TrainMetrics)

/-- The protocol-selection block of ml_engine.py train (lines 122-204):
given (n_samples, n_positive, n_negative), pick the evaluation protocol and
produce (the four held-out metrics, cv_accuracy, evaluation_method tag).
The n >= 20 branch additionally runs cross_val_score with
min(5, n_samples // 4) folds for cv_accuracy; the small-sample branch runs
cross_val_predict with max(2, min(n_samples, 5)) folds and, when that call
raises, substitutes the neutral 0.5 for all four metrics. -/
def selectEval (o : TrainOracles) (n : Nat) (nPos nNeg : Int) :
    Metrics4 × ℚ × String :=
  if 20 ≤ n ∧ 4 ≤ nPos ∧ 4 ≤ nNeg then
    (o.ttsMetrics,
     if 2 ≤ min 5 (n / 4) then o.cvScoresMean (min 5 (n / 4))
     else o.ttsMetrics.accuracy,
     "train_test_split")
  else if 10 ≤ n then
    (o.looMetrics, o.looMetrics.accuracy, "leave_one_out")
  else
    match o.cvPredict (max 2 (min n 5)) with
    | some t => (t, t.accuracy, "cross_val_predict")
    | none => (⟨1/2, 1/2, 1/2, 1/2⟩, 1/2, "cross_val_predict")

/-- The metrics dict a successful train() builds (ml_engine.py lines
251-268) from the selected evaluation outcome, the reliability assessment
and the externally computed training accuracy and top terms. -/
def buildMetrics (o : TrainOracles) (n : Nat) (nPos nNeg : Int) :
    TrainMetrics :=
  { samples := n
    positive_samples := nPos
    negative_samples := nNeg
    accuracy := (selectEval o n nPos nNeg).1.accuracy
    precisionScore := (selectEval o n nPos nNeg).1.precisionScore
    recallScore := (selectEval o n nPos nNeg).1.recallScore
    f1 := (selectEval o n nPos nNeg).1.f1
    cv_accuracy := (selectEval o n nPos nNeg).2.1
    training_accuracy := o.trainingAccuracy
    evaluation_method := (selectEval o n nPos nNeg).2.2
    reliable := is_reliable n nPos nNeg
    confidenceLevel := confidence_level n nPos nNeg
    top_positive := o.topPositive
    top_negative := o.topNegative }

/-- ml_engine.py PaperMLEngine.train (lines 70-288), with the external
sklearn computations abstracted by the oracles: validation checks, then
protocol selection by (n_samples, n_positive, n_negative), metric assembly,
reliability assessment, state update and the save_model_state call. -/
def train (st : EngineState) (papers : List Paper) (o : TrainOracles)
    (min_samples : Nat) : TrainOutput :=
  if (get_training_data papers).1.length < min_samples then
    { state := st,
      result := .insufficientData (get_training_data papers).1.length min_samples,
      saved := none }
  else if (get_training_data papers).2.dedup.length < 2 then
    { state := st,
      result := .classImbalance (get_training_data papers).1.length,
      saved := none }
  else
    { state :=
        { model := some o.fittedModel
          vectorizer := some o.fittedVectorizer
          trained := true
          metrics := some (buildMetrics o (get_training_data papers).1.length
            (get_training_data papers).2.sum
            (((get_training_data papers).2.length : Int) -
              (get_training_data papers).2.sum)) }
      result := .success (buildMetrics o (get_training_data papers).1.length
        (get_training_data papers).2.sum
        (((get_training_data papers).2.length : Int) -
          (get_training_data papers).2.sum))
      saved := some (o.model_blob, o.vectorizer_blob,
        buildMetrics o (get_training_data papers).1.length
          (get_training_data papers).2.sum
          (((get_training_data papers).2.length : Int) -
            (get_training_data papers).2.sum)) }

/-- The probability row predict_relevance works from: the active model's
predict_proba applied to the active vectorizer's transform of the paper's
prepared text (ml_engine.py lines 296-298); empty when either is missing. -/
def probaOf (e : EngineState) (p : Paper) : List ℚ :=
  match e.model, e.vectorizer with
  | some m, some v => m.predictProba (v.transform (prepare_text p))
  | _, _ => []

/-- The index predict_relevance reads the probability from (ml_engine.py
lines 300-305): the index of class 1 in model.classes_, or 0 when class 1
is absent. -/
def relevantIdx (e : EngineState) : Nat :=
  if (1 : Int) ∈ (e.model.map FittedModel.classes).getD []
  then ((e.model.map FittedModel.classes).getD []).indexOf 1
  else 0

/-- ml_engine.py PaperMLEngine.predict_relevance (lines 290-310): None when
no trained model/vectorizer is loaded; otherwise the probability at the
index of class 1 in model.classes_ (index 0 when class 1 is absent).  An
out-of-range index raises in Python and is caught, returning None. -/
def predict_relevance (e : EngineState) (p : Paper) : Option ℚ :=
  if !e.trained || e.model.isNone || e.vectorizer.isNone then none
  else if relevantIdx e < (probaOf e p).length
  then some ((probaOf e p).getD (relevantIdx e) 0)
  else none

/-- Stable insertion of one element into a list sorted descending by the
key, placing it before later elements of equal key. -/
def insertDescBy (key : Paper × ℚ → ℚ) (x : Paper × ℚ) :
    List (Paper × ℚ) → List (Paper × ℚ)
  | [] => [x]
  | y :: ys => if key y ≤ key x then x :: y :: ys else y :: insertDescBy key x ys

/-- Stable descending sort by a rational key (Python list.sort with
reverse=True is stable). -/
def sortDescBy (key : Paper × ℚ → ℚ) (l : List (Paper × ℚ)) :
    List (Paper × ℚ) :=
  l.foldr (insertDescBy key) []

/-- Stable insertion for the newest-first paper ordering. -/
def insertNewest (x : Paper) : List Paper → List Paper
  | [] => [x]
  | y :: ys => if y.published ≤ x.published then x :: y :: ys else y :: insertNewest x ys

/-- database.py DatabaseManager.get_all_papers (lines 303-313): all papers
ordered by published date, newest first, truncated to limit. -/
def get_all_papers (db : List Paper) (limit : Nat) : List Paper :=
  (db.foldr insertNewest []).take limit

/-- ml_engine.py PaperMLEngine.get_recommendations (lines 329-352): when
untrained, fall back to db.get_all_papers(limit); otherwise pull up to 500
papers, skip the ones already carrying a user label, keep those that
receive a numeric score, sort by score descending and return the top
limit papers. -/
def get_recommendations (e : EngineState) (db : List Paper) (limit : Nat) :
    List Paper :=
  if e.trained = false then get_all_papers db limit
  else
    let papers := get_all_papers db 500
    let scored := papers.filterMap (fun p =>
      match p.user_label with
      | some _ => none
      | none =>
        match predict_relevance e p with
        | some s => some (p, s)
        | none => none)
    ((sortDescBy Prod.snd scored).take limit).map Prod.fst

/-- Modelled from the spec: the ModelVersion snapshot of the Model State
Store (spec section 3), which is absent from src (database.py has no model
table; ml_engine.py line 275 only calls db.save_model_state).  seq is the
creation sequence number, active the single-active flag. -/
structure ModelVersion where
  seq : Nat
  model_blob : String
  vectorizer_blob : String
  metrics : TrainMetrics
  active : Bool

/-- Modelled from the spec: save_model_state of the Model State Store
(spec sections 3 and 4.2), absent from src.  In one atomic step it creates
the new ModelVersion with active=true and the next sequence number and
deactivates every previously stored version. -/
def save_model_state (store : List ModelVersion) (mb vb : String)
    (m : TrainMetrics) : List ModelVersion :=
  { seq := store.length, model_blob := mb, vectorizer_blob := vb,
    metrics := m, active := true }
    :: store.map (fun v => { v with active := false })

/-- Apply the recorded save_model_state call of a train() output (if any)
to a store. -/
def applySave (store : List ModelVersion) :
    Option (String × String × TrainMetrics) → List ModelVersion
  | none => store
  | some (mb, vb, m) => save_model_state store mb vb m

/-- A store is well formed when every stored version's sequence number is
below the store size (true of every store built by save_model_state from
the empty store). -/
def WFStore (store : List ModelVersion) : Bool :=
  store.all (fun v => v.seq < store.length)

/-- Exactly one stored version has active=true. -/
def exactlyOneActive (store : List ModelVersion) : Bool :=
  (store.filter (fun v => v.active)).length = 1

/-- Every active version's sequence number strictly dominates every
inactive version's, i.e. the active version is the most recently created. -/
def activeIsNewest (store : List ModelVersion) : Bool :=
  store.all (fun v => !v.active ||
    store.all (fun w => w.active || decide (w.seq < v.seq)))

/-- A labeled paper fixture with a one-word title and the given label. -/
def mkPaper (id : String) (lab : Option Int) : Paper :=
  { arxiv_id := id, title := "t", summary := "", authors := "",
    primary_category := "", user_label := lab, published := 0 }

/-- A concrete fitted model: classes [0, 1], constant probability row. -/
def modelW : FittedModel :=
  { classes := [0, 1], predictProba := fun _ => [1/2, 1/2] }

/-- A concrete fitted vectorizer. -/
def vectW : Vectorizer := { transform := fun _ => [1] }

/-- Concrete oracles for witness instantiations (cross-validation
succeeds). -/
def oraclesW : TrainOracles :=
  { ttsMetrics := ⟨1, 1, 1, 1⟩
    cvScoresMean := fun _ => 1
    looMetrics := ⟨1, 1, 1, 1⟩
    cvPredict := fun _ => some ⟨1, 1, 1, 1⟩
    trainingAccuracy := 1
    topPositive := []
    topNegative := []
    fittedModel := modelW
    fittedVectorizer := vectW
    model_blob := "mb"
    vectorizer_blob := "vb" }

/-- Oracles whose cross_val_predict call raises (degenerate folds). -/
def oraclesDegenerate : TrainOracles :=
  { oraclesW with cvPredict := fun _ => none }

/-- The fresh engine state before any training. -/
def stUntrained : EngineState :=
  { model := none, vectorizer := none, trained := false, metrics := none }

/-- A trained engine state over the concrete model and vectorizer. -/
def stTrained : EngineState :=
  { model := some modelW, vectorizer := some vectW, trained := true,
    metrics := none }

/-- Five labeled papers: four relevant, one not relevant. -/
def papersFive : List Paper :=
  [mkPaper "a" (some 1), mkPaper "b" (some 1), mkPaper "c" (some 1),
   mkPaper "d" (some 1), mkPaper "e" (some 0)]

/-- Three labeled papers, all relevant (one class entirely absent). -/
def papersThree : List Paper :=
  [mkPaper "a" (some 1), mkPaper "b" (some 1), mkPaper "c" (some 1)]

/-- Five labeled papers, all relevant (one class entirely absent). -/
def papersFivePos : List Paper :=
  [mkPaper "a" (some 1), mkPaper "b" (some 1), mkPaper "c" (some 1),
   mkPaper "d" (some 1), mkPaper "e" (some 1)]

/-- One already-labeled paper. -/
def paperLabeled : Paper := mkPaper "x" (some 1)

/-- One unlabeled paper. -/
def paperUnlabeled : Paper := mkPaper "y" none

/-- A store holding a single earlier, currently active model version. -/
def storeW : List ModelVersion :=
  [{ seq := 0, model_blob := "m0", vectorizer_blob := "v0",
     metrics := default, active := true }]

theorem confRank_mono (n n' : Nat) (a a' b b' : Int)
    (hn : n ≤ n') (ha : a ≤ a') (hb : b ≤ b') :
    confRank (confidence_level n a b) ≤ confRank (confidence_level n' a' b') := by
  unfold confidence_level
  split_ifs with h1 h2 h3 h4 h5 h6 <;> simp [confRank] <;> omega

theorem get_training_data_length (papers : List Paper) :
    (get_training_data papers).1.length = (get_training_data papers).2.length := by
  simp [get_training_data]

theorem sum_eq_count_one (l : List Int)
    (h : ∀ x ∈ l, x = 0 ∨ x = 1) : l.sum = (l.count 1 : Int) := by
  induction l with
  | nil => rfl
  | cons a t ih =>
    have ha := h a (List.mem_cons_self a t)
    have ht := fun x hx => h x (List.mem_cons_of_mem a hx)
    rcases ha with ha | ha
    · simp [List.count_cons, ha, List.sum_cons, ih ht]
    · simp [List.count_cons, ha, List.sum_cons, ih ht]
      ring

theorem sub_sum_eq_count_zero (l : List Int)
    (h : ∀ x ∈ l, x = 0 ∨ x = 1) :
    (l.length : Int) - l.sum = (l.count 0 : Int) := by
  induction l with
  | nil => rfl
  | cons a t ih =>
    have ha := h a (List.mem_cons_self a t)
    have ht := fun x hx => h x (List.mem_cons_of_mem a hx)
    have ih' := ih ht
    rcases ha with ha | ha
    · simp [List.count_cons, ha, List.sum_cons]
      linarith [ih']
    · simp [List.count_cons, ha, List.sum_cons]
      linarith [ih']

theorem train_insufficient_eq (st : EngineState) (papers : List Paper)
    (o : TrainOracles) (ms : Nat)
    (h : (get_training_data papers).1.length < ms) :
    train st papers o ms =
      { state := st,
        result := .insufficientData (get_training_data papers).1.length ms,
        saved := none } := by
  unfold train
  rw [if_pos h]

theorem train_imbalance_eq (st : EngineState) (papers : List Paper)
    (o : TrainOracles) (ms : Nat)
    (h1 : ¬ ((get_training_data papers).1.length < ms))
    (h2 : (get_training_data papers).2.dedup.length < 2) :
    train st papers o ms =
      { state := st,
        result := .classImbalance (get_training_data papers).1.length,
        saved := none } := by
  unfold train
  rw [if_neg h1, if_pos h2]

theorem train_valid_eq (st : EngineState) (papers : List Paper)
    (o : TrainOracles) (ms : Nat)
    (h1 : ¬ ((get_training_data papers).1.length < ms))
    (h2 : ¬ ((get_training_data papers).2.dedup.length < 2)) :
    train st papers o ms =
      { state :=
          { model := some o.fittedModel
            vectorizer := some o.fittedVectorizer
            trained := true
            metrics := some (buildMetrics o (get_training_data papers).1.length
              (get_training_data papers).2.sum
              (((get_training_data papers).2.length : Int) -
                (get_training_data papers).2.sum)) }
        result := .success (buildMetrics o (get_training_data papers).1.length
          (get_training_data papers).2.sum
          (((get_training_data papers).2.length : Int) -
            (get_training_data papers).2.sum))
        saved := some (o.model_blob, o.vectorizer_blob,
          buildMetrics o (get_training_data papers).1.length
            (get_training_data papers).2.sum
            (((get_training_data papers).2.length : Int) -
              (get_training_data papers).2.sum)) } := by
  unfold train
  rw [if_neg h1, if_neg h2]

theorem selectEval_tag_small (o : TrainOracles) (n : Nat) (nPos nNeg : Int)
    (h : n < 10) :
    (selectEval o n nPos nNeg).2.2 = "cross_val_predict" := by
  unfold selectEval
  rw [if_neg (by intro hc; omega), if_neg (by omega)]
  cases o.cvPredict (max 2 (min n 5)) <;> rfl

theorem selectEval_tag_loo (o : TrainOracles) (n : Nat) (nPos nNeg : Int)
    (h1 : 10 ≤ n) (h2 : n < 20) :
    (selectEval o n nPos nNeg).2.2 = "leave_one_out" := by
  unfold selectEval
  rw [if_neg (by intro hc; omega), if_pos h1]

theorem selectEval_tag_tts (o : TrainOracles) (n : Nat) (nPos nNeg : Int)
    (h1 : 20 ≤ n) (h2 : 4 ≤ nPos) (h3 : 4 ≤ nNeg) :
    (selectEval o n nPos nNeg).2.2 = "train_test_split" := by
  unfold selectEval
  rw [if_pos ⟨h1, h2, h3⟩]

theorem selectEval_degenerate (o : TrainOracles) (n : Nat) (nPos nNeg : Int)
    (h : n < 10) (hcv : o.cvPredict (max 2 (min n 5)) = none) :
    selectEval o n nPos nNeg = (⟨1/2, 1/2, 1/2, 1/2⟩, 1/2, "cross_val_predict") := by
  unfold selectEval
  rw [if_neg (by intro hc; omega), if_neg (by omega), hcv]

theorem mem_insertDescBy (key : Paper × ℚ → ℚ) (x y : Paper × ℚ)
    (l : List (Paper × ℚ)) (h : y ∈ insertDescBy key x l) : y = x ∨ y ∈ l := by
  induction l with
  | nil =>
    simp only [insertDescBy, List.mem_singleton] at h
    exact Or.inl h
  | cons a t ih =>
    by_cases hc : key a ≤ key x
    · rw [insertDescBy, if_pos hc] at h
      rcases List.mem_cons.mp h with h | h
      · exact Or.inl h
      · exact Or.inr h
    · rw [insertDescBy, if_neg hc] at h
      rcases List.mem_cons.mp h with h | h
      · exact Or.inr (by simp [h])
      · rcases ih h with h' | h'
        · exact Or.inl h'
        · exact Or.inr (List.mem_cons_of_mem a h')

theorem mem_sortDescBy (key : Paper × ℚ → ℚ) (y : Paper × ℚ)
    (l : List (Paper × ℚ)) (h : y ∈ sortDescBy key l) : y ∈ l := by
  induction l with
  | nil => simp [sortDescBy] at h
  | cons a t ih =>
    unfold sortDescBy at h ih
    rcases mem_insertDescBy key a y (t.foldr (insertDescBy key) []) h with h' | h'
    · simp [h']
    · exact List.mem_cons_of_mem a (ih h')

theorem train_success_saved (st : EngineState) (papers : List Paper)
    (o : TrainOracles) (ms : Nat)
    (h : (train st papers o ms).result.isSuccess = true) :
    (train st papers o ms).saved =
      some (o.model_blob, o.vectorizer_blob, (train st papers o ms).result.getMetrics) := by
  by_cases h1 : (get_training_data papers).1.length < ms
  · rw [train_insufficient_eq st papers o ms h1] at h
    simp [TrainResult.isSuccess] at h
  · by_cases h2 : (get_training_data papers).2.dedup.length < 2
    · rw [train_imbalance_eq st papers o ms h1 h2] at h
      simp [TrainResult.isSuccess] at h
    · rw [train_valid_eq st papers o ms h1 h2]
      simp [TrainResult.getMetrics]

theorem filter_active_deactivated (store : List ModelVersion) :
    ((store.map (fun v => { v with active := false })).filter
      (fun v => v.active)) = [] := by
  induction store with
  | nil => rfl
  | cons a t ih =>
    simp only [List.map_cons, List.filter]
    exact ih

theorem seq_mem_deactivated (store : List ModelVersion) (w : ModelVersion)
    (hw : w ∈ store.map (fun v => { v with active := false })) :
    w.active = false ∧ ∃ v ∈ store, w.seq = v.seq := by
  rcases List.mem_map.mp hw with ⟨v, hv, rfl⟩
  exact ⟨rfl, v, hv, rfl⟩

theorem save_model_state_exactlyOne (store : List ModelVersion)
    (mb vb : String) (m : TrainMetrics) :
    exactlyOneActive (save_model_state store mb vb m) = true := by
  unfold exactlyOneActive save_model_state
  simp [List.filter, filter_active_deactivated store]

theorem save_model_state_newest (store : List ModelVersion)
    (mb vb : String) (m : TrainMetrics) (hWF : WFStore store = true) :
    activeIsNewest (save_model_state store mb vb m) = true := by
  have hseq : ∀ w ∈ store.map (fun v => { v with active := false }),
      w.active = false ∧ w.seq < store.length := by
    intro w hw
    rcases seq_mem_deactivated store w hw with ⟨hact, v, hv, hs⟩
    refine ⟨hact, ?_⟩
    rw [hs]
    exact of_decide_eq_true (List.all_eq_true.mp hWF v hv)
  unfold activeIsNewest save_model_state
  rw [List.all_eq_true]
  intro v hv
  rcases List.mem_cons.mp hv with rfl | hv'
  · rw [Bool.not_true, Bool.false_or, List.all_eq_true]
    intro w hw
    rcases List.mem_cons.mp hw with rfl | hw'
    · rfl
    · have := (hseq w hw').2
      simp [decide_eq_true_eq, this]
  · have := (hseq v hv').1
    simp [this]

theorem mem_take_of_mem {α : Type} {a : α} :
    ∀ (n : Nat) (l : List α), a ∈ l.take n → a ∈ l := by
  intro n
  induction n with
  | zero =>
    intro l h
    simp at h
  | succ k ih =>
    intro l h
    cases l with
    | nil => simp at h
    | cons b t =>
      rcases List.mem_cons.mp h with h' | h'
      · simp [h']
      · exact List.mem_cons_of_mem b (ih t h')

theorem getD_mem_of_lt (l : List ℚ) (i : Nat) (h : i < l.length) :
    l.getD i 0 ∈ l := by
  induction l generalizing i with
  | nil => simp at h
  | cons a t ih =>
    cases i with
    | zero => simp [List.getD]
    | succ j =>
      have hj : j < t.length := by simpa using h
      simp only [List.getD_cons_succ]
      exact List.mem_cons_of_mem a (ih j hj)

/-- C1: for every training set passing the validation checks, train selects
the evaluation protocol by sample count and class counts: with 5 <= n < 10
the reported evaluation_method tag is "cross_val_predict", the tag of the
k-fold cross-validation protocol; with 10 <= n < 20 it is "leave_one_out";
with n >= 20 and at least 4 examples of each class it is
"train_test_split", the stratified split protocol. -/
theorem train_evaluation_protocol (st : EngineState) (papers : List Paper)
    (o : TrainOracles)
    (hbin : ∀ l ∈ (get_training_data papers).2, l = 0 ∨ l = 1)
    (hn : ¬ ((get_training_data papers).1.length < 5))
    (hc : ¬ ((get_training_data papers).2.dedup.length < 2)) :
    ((get_training_data papers).1.length < 10 →
       (train st papers o 5).result.isSuccess = true ∧
       (train st papers o 5).result.getMetrics.evaluation_method =
         "cross_val_predict") ∧
    (10 ≤ (get_training_data papers).1.length →
     (get_training_data papers).1.length < 20 →
       (train st papers o 5).result.isSuccess = true ∧
       (train st papers o 5).result.getMetrics.evaluation_method =
         "leave_one_out") ∧
    (20 ≤ (get_training_data papers).1.length →
     4 ≤ (get_training_data papers).2.count 1 →
     4 ≤ (get_training_data papers).2.count 0 →
       (train st papers o 5).result.isSuccess = true ∧
       (train st papers o 5).result.getMetrics.evaluation_method =
         "train_test_split") := by
  rw [train_valid_eq st papers o 5 hn hc]
  simp only [TrainResult.isSuccess, TrainResult.getMetrics, buildMetrics]
  refine ⟨?_, ?_, ?_⟩
  · intro h10
    exact ⟨trivial, selectEval_tag_small o _ _ _ h10⟩
  · intro h10 h20
    exact ⟨trivial, selectEval_tag_loo o _ _ _ h10 h20⟩
  · intro h20 hp hq
    refine ⟨trivial, selectEval_tag_tts o _ _ _ h20 ?_ ?_⟩
    · rw [sum_eq_count_one _ hbin]
      exact_mod_cast hp
    · rw [sub_sum_eq_count_zero _ hbin]
      exact_mod_cast hq

/-- Witness for C1: on five labeled papers (four relevant, one not),
validation passes and the selected tag is the k-fold one. -/
theorem train_evaluation_protocol_w :
    (train stUntrained papersFive oraclesW 5).result.isSuccess = true ∧
    (train stUntrained papersFive oraclesW 5).result.getMetrics.evaluation_method =
      "cross_val_predict" :=
  (train_evaluation_protocol stUntrained papersFive oraclesW (by decide)
    (by decide) (by decide)).1 (by decide)

/-- C2: after every successful train() call the save_model_state call is
made, and applying it to any well-formed store leaves exactly one
ModelVersion with active=true, namely the newly created one (largest
sequence number).  The store itself is modelled from the spec, since only
its callers appear in src. -/
theorem train_single_active_version (st : EngineState) (papers : List Paper)
    (o : TrainOracles) (store : List ModelVersion)
    (hWF : WFStore store = true)
    (hs : (train st papers o 5).result.isSuccess = true) :
    (train st papers o 5).saved.isSome = true ∧
    exactlyOneActive (applySave store (train st papers o 5).saved) = true ∧
    activeIsNewest (applySave store (train st papers o 5).saved) = true := by
  rw [train_success_saved st papers o 5 hs]
  exact ⟨rfl, save_model_state_exactlyOne store _ _ _,
    save_model_state_newest store _ _ _ hWF⟩

/-- Witness for C2: a successful concrete training run against a store
holding one earlier active version. -/
theorem train_single_active_version_w :
    (train stUntrained papersFive oraclesW 5).saved.isSome = true ∧
    exactlyOneActive
      (applySave storeW (train stUntrained papersFive oraclesW 5).saved) = true ∧
    activeIsNewest
      (applySave storeW (train stUntrained papersFive oraclesW 5).saved) = true :=
  train_single_active_version stUntrained papersFive oraclesW storeW
    (by decide) (by decide)

/-- C3 as amended: train() fails with InsufficientData carrying the current
and required counts exactly when n is below min_samples (5), with no state
change and no persistence; a successful run guarantees n >= 5 and both
classes present (at least 1 example of each, not 2). -/
theorem train_validation_gate (st : EngineState) (papers : List Paper)
    (o : TrainOracles) :
    ((get_training_data papers).1.length < 5 →
       (train st papers o 5).result =
         .insufficientData (get_training_data papers).1.length 5 ∧
       (train st papers o 5).saved = none ∧
       (train st papers o 5).state = st) ∧
    ((train st papers o 5).result.isSuccess = true →
       5 ≤ (get_training_data papers).1.length ∧
       2 ≤ (get_training_data papers).2.dedup.length) := by
  constructor
  · intro h
    rw [train_insufficient_eq st papers o 5 h]
    exact ⟨rfl, rfl, rfl⟩
  · intro h
    by_cases h1 : (get_training_data papers).1.length < 5
    · rw [train_insufficient_eq st papers o 5 h1] at h
      simp [TrainResult.isSuccess] at h
    · by_cases h2 : (get_training_data papers).2.dedup.length < 2
      · rw [train_imbalance_eq st papers o 5 h1 h2] at h
        simp [TrainResult.isSuccess] at h
      · omega

/-- Counterexample to C3 as stated: five samples with only one negative
example (a class with fewer than 2 examples) do NOT fail with
InsufficientData; training proceeds and succeeds. -/
theorem train_validation_gate_cx :
    (get_training_data papersFive).2.count 0 = 1 ∧
    (train stUntrained papersFive oraclesW 5).result.isSuccess = true := by
  exact ⟨by decide, by decide⟩

/-- Witness for C3 (amended): three labeled papers fail with
InsufficientData 3 5 and leave the engine untouched. -/
theorem train_validation_gate_w :
    (train stUntrained papersThree oraclesW 5).result =
      .insufficientData (get_training_data papersThree).1.length 5 ∧
    (train stUntrained papersThree oraclesW 5).saved = none ∧
    (train stUntrained papersThree oraclesW 5).state = stUntrained :=
  (train_validation_gate stUntrained papersThree oraclesW).1 (by decide)

/-- C4 as amended: when n >= min_samples and one class is entirely absent,
train() fails with ClassImbalance, a failure kind distinct from
InsufficientData; when n < 5, the volume check fires first even if a class
is absent. -/
theorem train_class_imbalance (st : EngineState) (papers : List Paper)
    (o : TrainOracles)
    (h1 : ¬ ((get_training_data papers).1.length < 5))
    (h2 : (get_training_data papers).2.dedup.length < 2) :
    (train st papers o 5).result =
      .classImbalance (get_training_data papers).1.length ∧
    (train st papers o 5).result.isInsufficientData = false ∧
    (train st papers o 5).result.isSuccess = false ∧
    (train st papers o 5).saved = none := by
  rw [train_imbalance_eq st papers o 5 h1 h2]
  exact ⟨rfl, rfl, rfl, rfl⟩

/-- Counterexample to C4 as stated: three papers all labeled relevant (the
negative class entirely absent) fail with InsufficientData, not
ClassImbalance, because the volume check runs first. -/
theorem train_class_imbalance_cx :
    (get_training_data papersThree).2.dedup = [1] ∧
    (train stUntrained papersThree oraclesW 5).result.isInsufficientData = true := by
  exact ⟨by decide, by decide⟩

/-- Witness for C4 (amended): five papers all labeled relevant fail with
ClassImbalance. -/
theorem train_class_imbalance_w :
    (train stUntrained papersFivePos oraclesW 5).result =
      .classImbalance (get_training_data papersFivePos).1.length ∧
    (train stUntrained papersFivePos oraclesW 5).result.isInsufficientData = false ∧
    (train stUntrained papersFivePos oraclesW 5).result.isSuccess = false ∧
    (train stUntrained papersFivePos oraclesW 5).saved = none :=
  train_class_imbalance stUntrained papersFivePos oraclesW (by decide) (by decide)

/-- C5 as amended: whenever a trained model exists, no document in the
sequence returned by get_recommendations carries a non-null user label;
in the untrained fallback, get_all_papers is returned unfiltered and may
contain labeled documents. -/
theorem recommendations_exclude_labeled (e : EngineState) (db : List Paper)
    (limit : Nat) (h : e.trained = true) :
    ∀ p ∈ get_recommendations e db limit, p.user_label = none := by
  intro p hp
  unfold get_recommendations at hp
  rw [if_neg (by simp [h])] at hp
  rcases List.mem_map.mp hp with ⟨⟨q, s⟩, hmem, rfl⟩
  have hmem2 := mem_sortDescBy Prod.snd (q, s) _ (mem_take_of_mem limit _ hmem)
  rcases List.mem_filterMap.mp hmem2 with ⟨a, ha, heq⟩
  cases hl : a.user_label with
  | some l =>
    rw [hl] at heq
    simp at heq
  | none =>
    rw [hl] at heq
    cases hpred : predict_relevance e a with
    | none =>
      rw [hpred] at heq
      simp at heq
    | some s2 =>
      rw [hpred] at heq
      simp only [Option.some.injEq] at heq
      have hqa : q = a := by
        have := congrArg Prod.fst heq.symm
        simpa using this
      rw [hqa]
      exact hl

/-- Counterexample to C5 as stated: with no trained model, the fallback
returns the most recent papers including one that carries label 1. -/
theorem recommendations_exclude_labeled_cx :
    stUntrained.trained = false ∧
    (get_recommendations stUntrained [paperLabeled] 10).map Paper.user_label =
      [some 1] := by
  exact ⟨rfl, by decide⟩

/-- Witness for C5 (amended): a trained engine over one unlabeled and one
labeled paper recommends only unlabeled documents. -/
theorem recommendations_exclude_labeled_w :
    stTrained.trained = true ∧ paperUnlabeled.user_label = none :=
  ⟨rfl, recommendations_exclude_labeled stTrained [paperUnlabeled, paperLabeled]
    10 rfl paperUnlabeled (by decide)⟩

/-- C6: predict_relevance returns the distinct non-numeric None (never the
number zero) when no trained model exists; any numeric result it returns is
the entry of the predicted-probability row at the positive-class index, and
lies in [0, 1] whenever the external predict_proba contract (all entries in
[0, 1]) holds. -/
theorem predict_relevance_contract (e : EngineState) (p : Paper) :
    (e.trained = false →
       predict_relevance e p = none ∧ ∀ q : ℚ, predict_relevance e p ≠ some q) ∧
    (∀ r : ℚ, predict_relevance e p = some r →
       (∀ q ∈ probaOf e p, 0 ≤ q ∧ q ≤ 1) → 0 ≤ r ∧ r ≤ 1) ∧
    (∀ M : FittedModel, e.trained = true → e.model = some M →
       e.vectorizer.isSome = true → (1 : Int) ∈ M.classes →
       M.classes.indexOf 1 < (probaOf e p).length →
       predict_relevance e p =
         some ((probaOf e p).getD (M.classes.indexOf 1) 0)) := by
  refine ⟨?_, ?_, ?_⟩
  · intro h
    constructor
    · simp [predict_relevance, h]
    · intro q
      simp [predict_relevance, h]
  · intro r hr hb
    unfold predict_relevance at hr
    split at hr
    · simp at hr
    · split at hr
      · have hrq := Option.some.inj hr
        have hmem := getD_mem_of_lt _ _ (by assumption)
        rw [hrq] at hmem
        exact hb r hmem
      · simp at hr
  · intro M htr hm hv h1 hidx
    have hcond : (!e.trained || e.model.isNone || e.vectorizer.isNone) = false := by
      simp [htr, hm, Option.isSome_iff_exists] at hv ⊢
      rcases hv with ⟨v, hv⟩
      simp [hv]
    have hclasses : (e.model.map FittedModel.classes).getD [] = M.classes := by
      rw [hm]
      rfl
    have hri : relevantIdx e = M.classes.indexOf 1 := by
      unfold relevantIdx
      rw [hclasses, if_pos h1]
    unfold predict_relevance
    rw [hcond]
    simp only [Bool.false_eq_true, if_false]
    rw [hri, if_pos hidx]

/-- Witness for C6: the concrete trained engine returns probability 1/2 for
the unlabeled paper and the bound [0, 1] holds. -/
theorem predict_relevance_contract_w :
    predict_relevance stTrained paperUnlabeled = some (1/2) ∧
    (0 ≤ (1/2 : ℚ) ∧ (1/2 : ℚ) ≤ 1) :=
  ⟨rfl, (predict_relevance_contract stTrained paperUnlabeled).2.1 (1/2) rfl
    (by intro q hq; simp [probaOf, stTrained, modelW, vectW] at hq; rw [hq]; norm_num)⟩

/-- C7: the reliability assessment is a pure function of
(n, positive count, negative count); the tier is high iff n >= 50 with both
classes >= 15, medium iff not high and n >= 20 with both classes >= 5, low
otherwise, and is_reliable holds exactly on the medium-or-high condition. -/
theorem reliability_assessment_characterization (n : Nat) (pos neg : Int) :
    ((confidence_level n pos neg = "high") ↔ (50 ≤ n ∧ 15 ≤ pos ∧ 15 ≤ neg)) ∧
    ((confidence_level n pos neg = "medium") ↔
      (¬ (50 ≤ n ∧ 15 ≤ pos ∧ 15 ≤ neg) ∧ (20 ≤ n ∧ 5 ≤ pos ∧ 5 ≤ neg))) ∧
    ((confidence_level n pos neg = "low") ↔
      (¬ (50 ≤ n ∧ 15 ≤ pos ∧ 15 ≤ neg) ∧ ¬ (20 ≤ n ∧ 5 ≤ pos ∧ 5 ≤ neg))) ∧
    ((is_reliable n pos neg = true) ↔ (20 ≤ n ∧ 5 ≤ pos ∧ 5 ≤ neg)) ∧
    ((is_reliable n pos neg = true) ↔
      (confidence_level n pos neg = "medium" ∨
       confidence_level n pos neg = "high")) := by
  unfold confidence_level is_reliable
  split_ifs with h1 h2
  all_goals refine ⟨?_, ?_, ?_, ?_, ?_⟩ <;> simp_all <;> omega

/-- C8: for a fixed class-balance ratio p : q, scaling the sample counts
(n, positive, negative) = ((p+q)k, pk, qk) by a larger k never lowers the
reliability tier. -/
theorem reliability_tier_monotone (p q k j : Nat) (hk : k ≤ j) :
    confRank (confidence_level ((p + q) * k) ((p * k : Nat) : Int)
      ((q * k : Nat) : Int)) ≤
    confRank (confidence_level ((p + q) * j) ((p * j : Nat) : Int)
      ((q * j : Nat) : Int)) := by
  refine confRank_mono _ _ _ _ _ _ ?_ ?_ ?_
  · exact Nat.mul_le_mul_left (p + q) hk
  · exact_mod_cast Nat.mul_le_mul_left p hk
  · exact_mod_cast Nat.mul_le_mul_left q hk

/-- Witness for C8: ratio 1 : 1, scale 10 (tier medium) against scale 25
(tier high). -/
theorem reliability_tier_monotone_w :
    confRank (confidence_level ((1 + 1) * 10) ((1 * 10 : Nat) : Int)
      ((1 * 10 : Nat) : Int)) ≤
    confRank (confidence_level ((1 + 1) * 25) ((1 * 25 : Nat) : Int)
      ((1 * 25 : Nat) : Int)) :=
  reliability_tier_monotone 1 1 10 25 (by decide)

/-- C9: for a validated training set with 5 <= n < 10, train() uses the
k-fold protocol with k = max(2, min(n, 5)) folds, and when that
cross_val_predict call degenerates (raises), all four evaluation metrics
are the neutral 0.5 and training still completes successfully. -/
theorem train_kfold_neutral_fallback (st : EngineState) (papers : List Paper)
    (o : TrainOracles)
    (hn : ¬ ((get_training_data papers).1.length < 5))
    (hc : ¬ ((get_training_data papers).2.dedup.length < 2))
    (h10 : (get_training_data papers).1.length < 10)
    (hcv : o.cvPredict (max 2 (min (get_training_data papers).1.length 5)) = none) :
    (train st papers o 5).result.isSuccess = true ∧
    (train st papers o 5).result.getMetrics.evaluation_method =
      "cross_val_predict" ∧
    (train st papers o 5).result.getMetrics.accuracy = 1/2 ∧
    (train st papers o 5).result.getMetrics.precisionScore = 1/2 ∧
    (train st papers o 5).result.getMetrics.recallScore = 1/2 ∧
    (train st papers o 5).result.getMetrics.f1 = 1/2 ∧
    (train st papers o 5).result.getMetrics.cv_accuracy = 1/2 := by
  rw [train_valid_eq st papers o 5 hn hc]
  simp only [TrainResult.isSuccess, TrainResult.getMetrics, buildMetrics]
  rw [selectEval_degenerate o _ _ _ h10 hcv]
  exact ⟨trivial, rfl, rfl, rfl, rfl, rfl, rfl⟩

/-- Witness for C9: five labeled papers with a degenerate cross-validation
oracle still train successfully with neutral metrics. -/
theorem train_kfold_neutral_fallback_w :
    (train stUntrained papersFive oraclesDegenerate 5).result.isSuccess = true ∧
    (train stUntrained papersFive oraclesDegenerate 5).result.getMetrics.evaluation_method =
      "cross_val_predict" ∧
    (train stUntrained papersFive oraclesDegenerate 5).result.getMetrics.accuracy = 1/2 ∧
    (train stUntrained papersFive oraclesDegenerate 5).result.getMetrics.precisionScore = 1/2 ∧
    (train stUntrained papersFive oraclesDegenerate 5).result.getMetrics.recallScore = 1/2 ∧
    (train stUntrained papersFive oraclesDegenerate 5).result.getMetrics.f1 = 1/2 ∧
    (train stUntrained papersFive oraclesDegenerate 5).result.getMetrics.cv_accuracy = 1/2 :=
  train_kfold_neutral_fallback stUntrained papersFive oraclesDegenerate
    (by decide) (by decide) (by decide) rfl

/-- C10: when train() returns a validation failure (too few labeled texts,
or only one distinct label), the engine state is returned unchanged and
save_model_state is never invoked. -/
theorem train_validation_preserves_state (st : EngineState)
    (papers : List Paper) (o : TrainOracles) (ms : Nat)
    (h : (get_training_data papers).1.length < ms ∨
         (get_training_data papers).2.dedup.length < 2) :
    (train st papers o ms).state = st ∧
    (train st papers o ms).saved = none ∧
    (train st papers o ms).result.isSuccess = false := by
  by_cases h1 : (get_training_data papers).1.length < ms
  · rw [train_insufficient_eq st papers o ms h1]
    exact ⟨rfl, rfl, rfl⟩
  · have h2 : (get_training_data papers).2.dedup.length < 2 := h.resolve_left h1
    rw [train_imbalance_eq st papers o ms h1 h2]
    exact ⟨rfl, rfl, rfl⟩

/-- Witness for C10: three labeled papers against min_samples 7 leave the
untrained engine state untouched with no save call. -/
theorem train_validation_preserves_state_w :
    (train stUntrained papersThree oraclesW 7).state = stUntrained ∧
    (train stUntrained papersThree oraclesW 7).saved = none ∧
    (train stUntrained papersThree oraclesW 7).result.isSuccess = false :=
  train_validation_preserves_state stUntrained papersThree oraclesW 7
    (Or.inl (by decide))
